import Mathlib

/-!
Shallow embedding of `ecs-exec-cli` (src/index.ts, with src/index.js as the
earlier variant of the same program) and proofs about its selection workflow.

The program is sequential glue: list clusters, pick one, list running tasks,
pick one, pick a container and a shell, then spawn `aws ecs execute-command`.
Interactive prompts are modelled by passing the user's answer (a chosen string
or a chosen position) as an argument; AWS backend responses are passed in as
data; the process-wide credential singleton (`AWS.config.credentials`) is an
explicit `Option Credentials` value.  JavaScript truthiness on strings is
modelled as `s ≠ ""`, on optional values as `Option` matching.
-/

namespace EcsExec

/-- `true` when the first list is an initial segment of the second
(char-by-char comparison, as a regex literal match does). -/
def listStartsWith : List Char → List Char → Bool
  | [], _ => true
  | _ :: _, [] => false
  | p :: ps, c :: cs => p == c && listStartsWith ps cs

/-- The suffix after the last occurrence of `marker` in the list (the
occurrence may start at any position, including 0); `none` when `marker`
does not occur. -/
def afterLastAux (marker : List Char) : List Char → Option (List Char)
  | [] => none
  | c :: cs =>
    match afterLastAux marker cs with
    | some r => some r
    | none =>
      if listStartsWith marker (c :: cs) then some ((c :: cs).drop marker.length)
      else none

/-- Semantics of `s.replace(/^(.+)marker/, "")`: the greedy `(.+)` (at least
one character) followed by the literal marker means the result is the suffix
after the LAST occurrence of the marker that starts at position ≥ 1; if there
is no such occurrence the string is unchanged. -/
def friendlySuffix (marker : String) (s : String) : String :=
  match s.data with
  | [] => s
  | _ :: cs =>
    match afterLastAux marker.data cs with
    | some r => String.mk r
    | none => s

/-- `clusterFriendlyName` of src/index.ts:66-68:
`clusterArn.replace(/^(.+)cluster\//, "")`. -/
def clusterFriendlyName (clusterArn : String) : String :=
  friendlySuffix "cluster/" clusterArn

/-- `taskDefFriendlyName` of src/index.ts:63-65:
`taskDefinitionArn.replace(/^(.+)task-definition\//, "")`. -/
def taskDefFriendlyName (taskDefinitionArn : String) : String :=
  friendlySuffix "task-definition/" taskDefinitionArn

/-- A managed agent of an ECS container (`AWS.ECS.ManagedAgent`); every field
the program touches, optional exactly as in the SDK types. -/
structure ManagedAgent where
  name : Option String
deriving DecidableEq

/-- An ECS container (`AWS.ECS.Container`), restricted to the fields the
program reads. -/
structure Container where
  name : Option String
  managedAgents : Option (List ManagedAgent)
deriving DecidableEq

/-- An ECS task (`AWS.ECS.Task`), restricted to the fields the program reads. -/
structure Task where
  taskArn : Option String
  taskDefinitionArn : Option String
  launchType : Option String
  enableExecuteCommand : Option Bool
  containers : Option (List Container)
deriving DecidableEq

/-- Outcome of the cluster-resolution step: either resolved without showing a
prompt (`resolved`, carrying `clusterArns[i]`, which is `none` when the
JavaScript indexing would yield `undefined`), or the interactive prompt is
shown with the given choice list. -/
inductive ClusterChoice where
  | resolved (cluster : Option String)
  | prompt (choices : List String)
deriving DecidableEq

/-- `askCluster` of src/index.ts:44-61.  `hint` is `argv.cluster`
(`string | undefined`); `h ≠ ""` models JavaScript truthiness of the
string in `argv.cluster && ...`.  The raw-identifier membership test comes
before the friendly-name membership test, and `List.indexOf` is the
first-occurrence index, as `Array.prototype.indexOf` is. -/
def askCluster (hint : Option String) (clusterArns : List String) : ClusterChoice :=
  match hint with
  | none => ClusterChoice.prompt (clusterArns.map clusterFriendlyName)
  | some h =>
    if h ≠ "" ∧ clusterArns.contains h then
      ClusterChoice.resolved (clusterArns.get? (clusterArns.indexOf h))
    else if h ≠ "" ∧ (clusterArns.map clusterFriendlyName).contains h then
      ClusterChoice.resolved (clusterArns.get? ((clusterArns.map clusterFriendlyName).indexOf h))
    else ClusterChoice.prompt (clusterArns.map clusterFriendlyName)

/-- `${t.launchType}` in a template literal: an absent value prints as the
string `"undefined"`. -/
def optStr (o : Option String) : String := o.getD "undefined"

/-- The display label `askTasks` (src/index.ts:70-87) builds for one task:
`` `${taskDefFriendlyName(t.taskDefinitionArn)} - (${t.launchType})` `` when
the task has a task-definition reference, else `undefined`. -/
def taskLabel (t : Task) : Option String :=
  match t.taskDefinitionArn with
  | none => none
  | some arn => some (taskDefFriendlyName arn ++ " - (" ++ optStr t.launchType ++ ")")

/-- The choice list of `askTasks`: the labels, with the `undefined` entries
(and, by `.filter((s) => !!s)` truthiness, empty strings) dropped. -/
def taskChoices (tasks : List Task) : List String :=
  tasks.filterMap (fun t =>
    match taskLabel t with
    | none => none
    | some s => if s = "" then none else some s)

/-- The task the program launches when the user selects entry `p` of the
displayed choice list.  `askTasks` returns
`index = questions[0].choices.indexOf(answer.task)` (src/index.ts:86) — a
first-occurrence lookup of the chosen STRING — and `run` then takes
`tasks[res.index]` from the unfiltered input list (src/index.ts:259-260). -/
def chosenResolvedTask (tasks : List Task) (p : Nat) : Option Task :=
  match (taskChoices tasks).get? p with
  | none => none
  | some ans => tasks.get? ((taskChoices tasks).indexOf ans)

/-- The filter predicate of `findExecuteCommandContainer` (src/index.ts:186-190):
`c.managedAgents && c.managedAgents.find((m) => m.name === "ExecuteCommandAgent")`. -/
def containerEligible (c : Container) : Bool :=
  match c.managedAgents with
  | none => false
  | some ms => ms.any (fun m => m.name == some "ExecuteCommandAgent")

/-- `c.name || "container"` (src/index.ts:191): the name when present and
truthy (non-empty), else the literal `"container"`. -/
def containerDisplayName (c : Container) : String :=
  match c.name with
  | none => "container"
  | some s => if s = "" then "container" else s

/-- `findExecuteCommandContainer` of src/index.ts:181-192. -/
def findExecuteCommandContainer (t : Task) : List String :=
  match t.containers with
  | none => []
  | some cs => (cs.filter containerEligible).map containerDisplayName

/-- Outcome of the container-resolution step in `run` (src/index.ts:268-272):
`containers.length > 1` shows the prompt, otherwise `containers[0]` is taken
without prompting — which is `undefined` (`none`) when the list is empty. -/
inductive ContainerStep where
  | auto (name : Option String)
  | prompt (choices : List String)
deriving DecidableEq

/-- The container-resolution step of `run` (src/index.ts:268-272). -/
def containerStep (t : Task) : ContainerStep :=
  let containers := findExecuteCommandContainer t
  if containers.length > 1 then ContainerStep.prompt containers
  else ContainerStep.auto (containers.get? 0)

/-- The `--container` value of the final launch: when more than one eligible
container exists the user's pick (position `pick` of the prompt's choice
list) is used, otherwise `containers[0]`. -/
def containerNameChosen (t : Task) (pick : Nat) : Option String :=
  if (findExecuteCommandContainer t).length > 1 then (findExecuteCommandContainer t).get? pick
  else (findExecuteCommandContainer t).get? 0

/-- The process-wide credential state (`AWS.config.credentials`), as the
program writes it: an access key id and a secret access key (src/index.ts:129-132
stores exactly these two fields). -/
structure Credentials where
  accessKeyId : String
  secretAccessKey : String
deriving DecidableEq

/-- One entry of `iam.listMFADevices().MFADevices`, restricted to the field
the program reads. -/
structure MFADevice where
  serialNumber : String
deriving DecidableEq

/-- The credentials inside a successful `sts.getSessionToken` response,
restricted to the fields the program reads. -/
structure StsCreds where
  accessKeyId : String
  secretAccessKey : String
deriving DecidableEq

/-- `mfaTokens` of src/index.ts:113-140.  `devices` is the IAM MFA-device
listing; `getSession serial code` is the `sts.getSessionToken` exchange,
`none` standing for a rejected exchange or a response without `Credentials`.
Every failure is re-thrown from the surrounding `catch` as `"MFA failed"`;
success stores the new access key id and secret key as the process-wide
credentials (returned here as the new state). -/
def mfaTokens (devices : List MFADevice)
    (getSession : String → String → Option StsCreds) (mfaToken : String) :
    Except String Credentials :=
  match devices with
  | [] => Except.error "MFA failed"
  | d :: _ =>
    match getSession d.serialNumber mfaToken with
    | none => Except.error "MFA failed"
    | some sc =>
      Except.ok { accessKeyId := sc.accessKeyId, secretAccessKey := sc.secretAccessKey }

/-- The MFA step of `run` (src/index.ts:241-249): when the `--mfa` flag is
set, the operator is asked for a code; `mfaTokens` is invoked only when the
entered code is truthy (non-empty).  The result carries whether `mfaTokens`
was invoked and the credential state after the step (`creds0` is the
prior/ambient state). -/
def runMfaStep (mfaFlag : Bool) (mfaCode : String) (devices : List MFADevice)
    (getSession : String → String → Option StsCreds) (creds0 : Option Credentials) :
    Except String (Bool × Option Credentials) :=
  if mfaFlag then
    if mfaCode ≠ "" then
      match mfaTokens devices getSession mfaCode with
      | Except.error e => Except.error e
      | Except.ok c => Except.ok (true, some c)
    else Except.ok (false, creds0)
  else Except.ok (false, creds0)

/-- `listTasks` of src/index.ts:158-179.  `taskArnsResp` is the `taskArns`
field of the `ecs.listTasks` response (`undefined` modelled as `none`);
`describe arns` is the `tasks` field of the `ecs.describeTasks` response for
those ARNs.  An absent field makes the function return `undefined` (`none`);
otherwise the described tasks are filtered to those whose
`enableExecuteCommand` is truthy. -/
def listTasks (taskArnsResp : Option (List String))
    (describe : List String → Option (List Task)) : Option (List Task) :=
  match taskArnsResp with
  | none => none
  | some arns =>
    match describe arns with
    | none => none
    | some ts => some (ts.filter (fun t => t.enableExecuteCommand.getD false))

/-- A spawn attempt recorded by the model of `spawnAwsScript`: the command,
its arguments, and the two credential environment overrides. -/
structure SpawnCall where
  cmd : String
  args : List String
  envAccessKeyId : String
  envSecretAccessKey : String
deriving DecidableEq

/-- `spawnAwsScript` of src/index.ts:212-235 up to the point the child
process is created: reading `AWS.config.credentials` (`creds`), the guard
`if (!credentials) throw ...` — a throw inside the `Promise` executor, i.e. a
rejection before `spawn` is ever called — and otherwise the `spawn` call with
the credentials injected into the child environment.  `Except.error` is the
rejection; `Except.ok` is the attempted spawn. -/
def spawnAwsScript (creds : Option Credentials) (cmd : String) (args : List String) :
    Except String SpawnCall :=
  match creds with
  | none => Except.error "No AWS credentials to run the script"
  | some c =>
    Except.ok { cmd := cmd, args := args,
                envAccessKeyId := c.accessKeyId, envSecretAccessKey := c.secretAccessKey }

/-- How the `download(testUrl, execFolder)` call in `testConfig` can end:
success (folder created, script file written into it), failure after the
folder was created (a partial download), or failure with nothing created. -/
inductive DownloadOutcome where
  | ok
  | failCreated
  | failClean
deriving DecidableEq

/-- How the `spawnAwsScript(execPath, ...)` call in `testConfig` can end. -/
inductive SpawnOutcome where
  | ok
  | fail
deriving DecidableEq

/-- The path `path.join(execFolder, "check-ecs-exec.sh")`. -/
def scriptFile (folder : String) : String := folder ++ "/check-ecs-exec.sh"

/-- Result of the `testConfig` model: whether the call propagates an error,
and the filesystem (the list of existing paths) when it returns. -/
structure TestConfigResult where
  errored : Bool
  fsPaths : List String
deriving DecidableEq

/-- `fs.rmdirSync(execFolder, { recursive: true })`: removes the folder and
every path under it. -/
def removeUnder (folder : String) (fs : List String) : List String :=
  fs.filter (fun p => !(p == folder || listStartsWith (folder ++ "/").data p.data))

/-- `testConfig` of src/index.ts:194-210 over an explicit filesystem `fs0`
(the list of existing paths).  `folder` is the fresh path `tempfile()`
returns (the path alone; `tempfile` creates nothing).  The `finally` block
removes the folder only when BOTH `execFolder` and `execPath` were assigned
and `fs.existsSync(execPath)` holds; when `download` itself throws,
`execPath` was never assigned, so no removal is attempted. -/
def testConfig (fs0 : List String) (folder : String)
    (dl : DownloadOutcome) (sp : SpawnOutcome) : TestConfigResult :=
  match dl with
  | DownloadOutcome.failClean => { errored := true, fsPaths := fs0 }
  | DownloadOutcome.failCreated => { errored := true, fsPaths := fs0 ++ [folder] }
  | DownloadOutcome.ok =>
    let fs1 := fs0 ++ [folder, scriptFile folder]
    let errored := match sp with | SpawnOutcome.ok => false | SpawnOutcome.fail => true
    let fs2 := if fs1.contains (scriptFile folder) then removeUnder folder fs1 else fs1
    { errored := errored, fsPaths := fs2 }

/-! Sample tasks used by the concrete evaluations below. -/

/-- A running task whose single container runs the ExecuteCommandAgent. -/
def sampleTaskA : Task :=
  { taskArn := some "arn:aws:ecs:us-east-1:123456789012:task/prod/1111",
    taskDefinitionArn := some "arn:aws:ecs:us-east-1:123456789012:task-definition/web:3",
    launchType := some "FARGATE", enableExecuteCommand := some true,
    containers := some
      [{ name := some "app",
         managedAgents := some [{ name := some "ExecuteCommandAgent" }] }] }

/-- The same task definition and launch type as `sampleTaskA` under a
different task ARN: the two render identical display labels. -/
def sampleTaskB : Task :=
  { sampleTaskA with taskArn := some "arn:aws:ecs:us-east-1:123456789012:task/prod/2222" }

/-- A task without a task-definition reference: its label is `undefined` and
is dropped from the choice list. -/
def sampleTaskNoDef : Task :=
  { sampleTaskA with
    taskArn := some "arn:aws:ecs:us-east-1:123456789012:task/prod/4444",
    taskDefinitionArn := none }

/-- A task whose only container has no managed agents: zero eligible
containers. -/
def sampleTaskNoAgent : Task :=
  { taskArn := some "arn:aws:ecs:us-east-1:123456789012:task/prod/3333",
    taskDefinitionArn := some "arn:aws:ecs:us-east-1:123456789012:task-definition/db:1",
    launchType := some "EC2", enableExecuteCommand := some true,
    containers := some [{ name := some "db", managedAgents := some [] }] }

/-! Helper lemmas. -/

/-- `arr[arr.indexOf(a)]` recovers `a` itself when `a` is a member:
`Array.prototype.indexOf` semantics of the first-occurrence index. -/
theorem get?_indexOf_self :
    ∀ (l : List String) (a : String), a ∈ l → l.get? (l.indexOf a) = some a
  | [], a, h => absurd h (List.not_mem_nil a)
  | b :: t, a, h => by
    by_cases hba : b = a
    · subst hba
      simp [List.indexOf_cons_self]
    · have hmem : a ∈ t := by
        cases h with
        | head => exact absurd rfl hba
        | tail _ h' => exact h'
      rw [List.indexOf_cons_ne _ hba]
      simpa using get?_indexOf_self t a hmem

/-- The element behind the first occurrence of a value in a mapped list:
`arns[clusterNames.indexOf(h)]` is some element whose image is `h`. -/
theorem get?_indexOf_map (f : String → String) :
    ∀ (l : List String) (a : String), a ∈ l.map f →
      ∃ b, l.get? ((l.map f).indexOf a) = some b ∧ f b = a
  | [], a, h => absurd h (by simp)
  | b :: t, a, h => by
    by_cases hba : f b = a
    · refine ⟨b, ?_, hba⟩
      simp [List.map_cons, List.indexOf_cons_eq _ hba]
    · have hmem : a ∈ t.map f := by
        rcases List.mem_map.mp h with ⟨x, hx, hfx⟩
        cases hx with
        | head => exact absurd hfx hba
        | tail _ hx' => exact List.mem_map.mpr ⟨x, hx', hfx⟩
      obtain ⟨v, hv, hfv⟩ := get?_indexOf_map f t a hmem
      refine ⟨v, ?_, hfv⟩
      rw [List.map_cons, List.indexOf_cons_ne _ hba]
      simpa using hv

/-- A list starts with itself followed by anything. -/
theorem listStartsWith_append (l m : List Char) : listStartsWith l (l ++ m) = true := by
  induction l with
  | nil => rfl
  | cons c cs ih => simp [listStartsWith, ih]

/-! The claims. -/

/-- C4: whenever the process-wide credential state holds no active
credentials, `spawnAwsScript` rejects (with the `LaunchError` of the spec's
taxonomy, the thrown `"No AWS credentials to run the script"`) and never
produces a spawn attempt. -/
theorem spawnAwsScript_no_credentials (cmd : String) (args : List String) :
    spawnAwsScript none cmd args = Except.error "No AWS credentials to run the script" ∧
    ∀ call : SpawnCall, spawnAwsScript none cmd args ≠ Except.ok call :=
  ⟨rfl, fun call h => by simp [spawnAwsScript] at h⟩

/-- C5: `findExecuteCommandContainer` returns `[]` (without raising) when the
task has no `containers` field, and otherwise keeps a container exactly when
its managed-agent set holds at least one agent named `"ExecuteCommandAgent"`. -/
theorem findExecuteCommandContainer_spec (t : Task) :
    (t.containers = none → findExecuteCommandContainer t = []) ∧
    (∀ cs, t.containers = some cs →
      findExecuteCommandContainer t = (cs.filter containerEligible).map containerDisplayName) ∧
    ∀ c : Container, containerEligible c = true ↔
      ∃ ms, c.managedAgents = some ms ∧ ∃ m ∈ ms, m.name = some "ExecuteCommandAgent" := by
  refine ⟨fun h => by simp [findExecuteCommandContainer, h],
    fun cs h => by simp [findExecuteCommandContainer, h], fun c => ?_⟩
  cases hma : c.managedAgents with
  | none => simp [containerEligible, hma]
  | some ms => simp [containerEligible, hma, List.any_eq_true]

/-- C5 witness: a task with no containers field maps to `[]`, and a concrete
container with the agent is eligible while one with an empty agent set is not. -/
theorem findExecuteCommandContainer_spec_witness :
    findExecuteCommandContainer
      { taskArn := none, taskDefinitionArn := none, launchType := none,
        enableExecuteCommand := none, containers := none } = [] ∧
    containerEligible
      { name := some "app",
        managedAgents := some [{ name := some "ExecuteCommandAgent" }] } = true :=
  ⟨(findExecuteCommandContainer_spec _).1 rfl,
   ((findExecuteCommandContainer_spec sampleTaskA).2.2 _).mpr
     ⟨[{ name := some "ExecuteCommandAgent" }], rfl, ⟨_, List.mem_singleton.mpr rfl, rfl⟩⟩⟩

/-- C7: when the operator supplies an empty MFA code (or the `--mfa` flag is
off, so no code exists), `mfaTokens` is not invoked and the prior/ambient
credential state passes through unchanged. -/
theorem runMfaStep_empty_code (mfaFlag : Bool) (devices : List MFADevice)
    (getSession : String → String → Option StsCreds) (creds0 : Option Credentials) :
    runMfaStep mfaFlag "" devices getSession creds0 = Except.ok (false, creds0) := by
  cases mfaFlag <;> simp [runMfaStep]

/-- C9: `mfaTokens` reads only the first registered MFA device: the devices
after the first never influence the outcome, and a successful exchange used
the first device's serial number. -/
theorem mfaTokens_first_device (d : MFADevice) (ds ds' : List MFADevice)
    (getSession : String → String → Option StsCreds) (code : String) :
    mfaTokens (d :: ds) getSession code = mfaTokens (d :: ds') getSession code ∧
    ∀ c, mfaTokens (d :: ds) getSession code = Except.ok c →
      ∃ sc, getSession d.serialNumber code = some sc ∧
        c = { accessKeyId := sc.accessKeyId, secretAccessKey := sc.secretAccessKey } := by
  cases h : getSession d.serialNumber code with
  | none => simp [mfaTokens, h]
  | some sc =>
    refine ⟨by simp [mfaTokens, h], fun c hc => ⟨sc, rfl, ?_⟩⟩
    simpa [mfaTokens, h] using hc.symm

/-- C10: an eligible container with an absent (or empty, hence falsy) name is
rendered as the literal `"container"`; every entry of the choice list is a
present, non-empty string; and the `--container` value of the final launch is
always one of those entries, never an absent value, whenever the prompt's
pick is within the choice list. -/
theorem containerName_never_absent (t : Task) :
    (∀ c : Container, c.name = none → containerDisplayName c = "container") ∧
    (∀ n, n ∈ findExecuteCommandContainer t → n ≠ "") ∧
    ∀ pick, pick < (findExecuteCommandContainer t).length →
      ∃ n, containerNameChosen t pick = some n ∧ n ∈ findExecuteCommandContainer t := by
  refine ⟨fun c h => by simp [containerDisplayName, h], ?_, ?_⟩
  · intro n hn
    have : ∃ c, n = containerDisplayName c := by
      cases hcs : t.containers with
      | none => rw [findExecuteCommandContainer, hcs] at hn; cases hn
      | some cs =>
        rw [findExecuteCommandContainer, hcs] at hn
        rcases List.mem_map.mp hn with ⟨c, _, rfl⟩
        exact ⟨c, rfl⟩
    obtain ⟨c, rfl⟩ := this
    unfold containerDisplayName
    cases c.name with
    | none => simp
    | some s =>
      by_cases hs : s = "" <;> simp [hs]
  · intro pick hp
    by_cases hlen : (findExecuteCommandContainer t).length > 1
    · exact ⟨(findExecuteCommandContainer t).get ⟨pick, hp⟩,
        by simp only [containerNameChosen, if_pos hlen]; exact List.get?_eq_get hp,
        List.get_mem _ _ _⟩
    · have hpos : 0 < (findExecuteCommandContainer t).length :=
        Nat.lt_of_le_of_lt (Nat.zero_le _) hp
      exact ⟨(findExecuteCommandContainer t).get ⟨0, hpos⟩,
        by simp only [containerNameChosen, if_neg hlen]; exact List.get?_eq_get hpos,
        List.get_mem _ _ _⟩

/-- C10 witness: on `sampleTaskNoName` the single eligible, nameless
container is rendered `"container"` and chosen for the launch. -/
theorem containerName_never_absent_witness :
    containerDisplayName
      { name := none,
        managedAgents := some [{ name := some "ExecuteCommandAgent" }] } = "container" :=
  (containerName_never_absent sampleTaskA).1 _ rfl

/-- C3 (amended): for every non-empty caller-supplied cluster hint that
equals a full identifier in the list or a friendly name derived from it,
`askCluster` short-circuits (the result is `resolved`, never `prompt`):
raw-identifier membership is checked first and returns the hint itself (which
is the element at its own first positional match); otherwise the full
identifier at the first positional match of the friendly-name list is
returned, and its friendly name is the hint. -/
theorem askCluster_shortcircuit (h : String) (arns : List String)
    (hne : h ≠ "")
    (hmem : h ∈ arns ∨ h ∈ arns.map clusterFriendlyName) :
    (h ∈ arns → askCluster (some h) arns = ClusterChoice.resolved (some h)) ∧
    (h ∉ arns →
      ∃ full, askCluster (some h) arns = ClusterChoice.resolved (some full) ∧
        arns.get? ((arns.map clusterFriendlyName).indexOf h) = some full ∧
        clusterFriendlyName full = h) := by
  constructor
  · intro hr
    have hc : arns.contains h = true := List.elem_iff.mpr hr
    simp only [askCluster]
    rw [if_pos ⟨hne, hc⟩, get?_indexOf_self arns h hr]
  · intro hnr
    have hf : h ∈ arns.map clusterFriendlyName := hmem.resolve_left hnr
    have hc1 : ¬(h ≠ "" ∧ arns.contains h = true) := by
      rintro ⟨-, hc⟩
      exact hnr (List.elem_iff.mp hc)
    have hc2 : (arns.map clusterFriendlyName).contains h = true := List.elem_iff.mpr hf
    obtain ⟨full, hget, hfull⟩ := get?_indexOf_map clusterFriendlyName arns h hf
    refine ⟨full, ?_, hget, hfull⟩
    simp only [askCluster]
    rw [if_neg hc1, if_pos ⟨hne, hc2⟩, hget]

/-- C3 witness: a hint that is itself the full cluster ARN resolves to that
ARN without prompting. -/
theorem askCluster_shortcircuit_witness :
    askCluster (some "arn:aws:ecs:us-east-1:123456789012:cluster/prod")
        ["arn:aws:ecs:us-east-1:123456789012:cluster/prod"] =
      ClusterChoice.resolved (some "arn:aws:ecs:us-east-1:123456789012:cluster/prod") :=
  (askCluster_shortcircuit "arn:aws:ecs:us-east-1:123456789012:cluster/prod"
      ["arn:aws:ecs:us-east-1:123456789012:cluster/prod"]
      (by decide) (Or.inl (by decide))).1 (by decide)

/-- C3 counterexample: the empty hint `--cluster ""` exactly equals the
friendly name derived from the identifier `"xcluster/"`, yet `askCluster`
shows the interactive prompt instead of short-circuiting, because the code
tests JavaScript truthiness of the hint before membership. -/
theorem askCluster_empty_hint_prompts :
    clusterFriendlyName "xcluster/" = "" ∧
    "" ∈ ["xcluster/"].map clusterFriendlyName ∧
    askCluster (some "") ["xcluster/"] = ClusterChoice.prompt [""] := by decide

/-- C1: the program resolves the chosen prompt entry by a first-occurrence
string lookup (`choices.indexOf(answer.task)`), not by the chosen position:
with two tasks rendering the identical label, selecting entry 1 launches the
task at position 0; and with a task lacking a task-definition reference, the
filtered choice list drifts against the unfiltered task list, so selecting
the (only) entry, which displays `sampleTaskA`, resolves to `sampleTaskNoDef`. -/
theorem taskSelection_not_positional :
    taskChoices [sampleTaskA, sampleTaskB] = ["web:3 - (FARGATE)", "web:3 - (FARGATE)"] ∧
    chosenResolvedTask [sampleTaskA, sampleTaskB] 1 = some sampleTaskA ∧
    List.get? [sampleTaskA, sampleTaskB] 1 = some sampleTaskB ∧
    sampleTaskA ≠ sampleTaskB ∧
    taskChoices [sampleTaskNoDef, sampleTaskA] = ["web:3 - (FARGATE)"] ∧
    chosenResolvedTask [sampleTaskNoDef, sampleTaskA] 0 = some sampleTaskNoDef ∧
    sampleTaskNoDef ≠ sampleTaskA := by decide

/-- C2: on a task with zero eligible containers the container-resolution step
of `run` neither raises any error nor prompts: `containers.length > 1` is
false, so `containers[0]` — `undefined` — is auto-taken as the container
name and the run proceeds toward the shell prompt and the final launch. -/
theorem containerStep_zero_proceeds :
    findExecuteCommandContainer sampleTaskNoAgent = [] ∧
    containerStep sampleTaskNoAgent = ContainerStep.auto none ∧
    containerNameChosen sampleTaskNoAgent 0 = none := by decide

/-- C6 (amended): `listTasks` surfaces an absent (`undefined`) result — not
an empty sequence — when the backend returns the task-ARN list or the task
list as absent, and raises nothing; when both are present (including empty
lists) it returns exactly the described tasks whose remote-execution flag is
truthy, i.e. `some true`. -/
theorem listTasks_spec (taskArnsResp : Option (List String))
    (describe : List String → Option (List Task)) :
    (taskArnsResp = none → listTasks taskArnsResp describe = none) ∧
    (∀ arns, taskArnsResp = some arns → describe arns = none →
      listTasks taskArnsResp describe = none) ∧
    (∀ arns ts, taskArnsResp = some arns → describe arns = some ts →
      listTasks taskArnsResp describe =
        some (ts.filter (fun t => t.enableExecuteCommand.getD false))) ∧
    ∀ (t : Task) (ts : List Task),
      t ∈ ts.filter (fun u => u.enableExecuteCommand.getD false) ↔
        t ∈ ts ∧ t.enableExecuteCommand = some true := by
  refine ⟨fun h => by simp [listTasks, h],
    fun arns h1 h2 => by simp [listTasks, h1, h2],
    fun arns ts h1 h2 => by simp [listTasks, h1, h2],
    fun t ts => ?_⟩
  rw [List.mem_filter]
  refine and_congr_right fun _ => ?_
  cases hob : t.enableExecuteCommand with
  | none => simp [hob]
  | some b => cases b <;> simp [hob]

/-- C6 witness: an absent described-task list surfaces `none`; a mixed
concrete list is filtered to exactly the enabled task. -/
theorem listTasks_spec_witness :
    listTasks (some ["arn:aws:ecs:us-east-1:123456789012:task/prod/1111"]) (fun _ => none) =
      none ∧
    listTasks (some []) (fun _ => some [sampleTaskA, { sampleTaskA with
      enableExecuteCommand := some false }]) = some [sampleTaskA] :=
  ⟨(listTasks_spec _ _).2.1 _ rfl rfl,
   by
    rw [(listTasks_spec (some []) (fun _ => some [sampleTaskA, { sampleTaskA with
      enableExecuteCommand := some false }])).2.2.1 _ _ rfl rfl]
    decide⟩

/-- C6 counterexample: when the backend returns the task-ARN list as absent,
`listTasks` yields `undefined` (`none`), not the empty sequence the claim
requires. -/
theorem listTasks_absent_arns_not_empty :
    listTasks none (fun _ => some []) = none ∧
    listTasks none (fun _ => some []) ≠ some [] :=
  ⟨rfl, fun hcontra => by simp [listTasks] at hcontra⟩

/-- C8 (amended): on every exit path reached after a successful download —
the spawn succeeding or failing alike — `testConfig` removes the ephemeral
folder and the script inside it; when the download itself throws, the
`finally` guard sees `execPath` unassigned and removes nothing. -/
theorem testConfig_cleans_after_download (fs0 : List String) (folder : String)
    (sp : SpawnOutcome) :
    folder ∉ (testConfig fs0 folder DownloadOutcome.ok sp).fsPaths ∧
    scriptFile folder ∉ (testConfig fs0 folder DownloadOutcome.ok sp).fsPaths := by
  have hmem : (fs0 ++ [folder, scriptFile folder]).contains (scriptFile folder) = true :=
    List.elem_iff.mpr (by simp)
  have hpaths : (testConfig fs0 folder DownloadOutcome.ok sp).fsPaths =
      removeUnder folder (fs0 ++ [folder, scriptFile folder]) := by
    simp [testConfig, hmem]
  constructor
  · rw [hpaths]
    intro hcontra
    rw [removeUnder, List.mem_filter] at hcontra
    rcases hcontra with ⟨-, hpred⟩
    simp at hpred
  · rw [hpaths]
    intro hcontra
    rw [removeUnder, List.mem_filter] at hcontra
    rcases hcontra with ⟨-, hpred⟩
    have hdata : (scriptFile folder).data = (folder.data ++ ['/']) ++ ("check-ecs-exec.sh").data := by
      show (folder ++ "/check-ecs-exec.sh").data = _
      rw [String.data_append folder "/check-ecs-exec.sh", List.append_assoc]
      rfl
    have hsw : listStartsWith (folder.data ++ ['/']) (scriptFile folder).data = true := by
      rw [hdata]
      exact listStartsWith_append _ _
    simp [hsw] at hpred

/-- C8 counterexample: a download that throws after creating the folder (a
partial download) leaves the ephemeral location on disk: `testConfig` returns
with the folder still present. -/
theorem testConfig_failed_download_keeps_folder :
    testConfig [] "/tmp/ecs-exec-check" DownloadOutcome.failCreated SpawnOutcome.ok =
      { errored := true, fsPaths := ["/tmp/ecs-exec-check"] } ∧
    "/tmp/ecs-exec-check" ∈
      (testConfig [] "/tmp/ecs-exec-check" DownloadOutcome.failCreated SpawnOutcome.ok).fsPaths := by
  decide

end EcsExec
